/-
Verification of the avito-edu repository: the helper functions of the Go
teaching snippets (filter, mapSlice, parallelProcessing, safeDivide, divide,
JSON marshalling of Person) and the bounded concurrent task runner design
described in the specification (sections 2-8), which has no implementation
under src/ and is therefore modelled from the words of the spec.

Machine integers are modelled as Int; integer division in Go truncates toward
zero, which is Int.tdiv in Lean.
-/
import Mathlib

namespace AvitoEdu

/-- Outcome of calling a Go function that may panic: either the returned value
or a panic carrying the panic message. -/
inductive TaskOutcome where
  | ok (v : Int)
  | panicked (msg : String)
deriving DecidableEq, Repr

/-- Modelled from the spec: a Task of the runner design (spec section 3; the
runner has no implementation under src/). It holds an input value and the task
function; the submission-order index is the position of the task in the submitted
list. -/
structure Task where
  input : Int
  fn : Int → TaskOutcome

/-- A task with trivial behaviour, used only as an out-of-range default. -/
def defaultTask : Task := ⟨0, fun v => .ok v⟩

/-- Modelled from the spec: the per-task result recorded in a result slot
(spec section 7): the output of the task itself, a task-level error (the function
returned an error or panicked), or cancelled (the task never ran). -/
inductive TaskResult where
  | ok (v : Int)
  | taskError (msg : String)
  | cancelled
deriving DecidableEq, Repr

/-- Modelled from the spec: the run-level error surfaced once by Run. -/
inductive RunError where
  | timeout
deriving DecidableEq, Repr

/-- Modelled from the spec: a worker executes one task; a panic during task
execution is recovered locally at the worker boundary and converted into a
task-level error (spec section 4.2). -/
def execTask (t : Task) : TaskResult :=
  match t.fn t.input with
  | .ok v => .ok v
  | .panicked msg => .taskError msg

/-- Modelled from the spec: Runner.Run (spec section 4.4). `executed i` records
whether task `i` was dequeued, and hence run, before cancellation or timeout;
`timedOut` records whether the deadline elapsed before all tasks completed.
The result slice is pre-sized to the number of submitted tasks and indexed by
submission order; every slot whose task never ran is marked cancelled. A run
with no cancellation and sufficient timeout has `executed` identically true and
`timedOut` false. -/
def runModel (tasks : List Task) (executed : Nat → Bool) (timedOut : Bool) :
    List TaskResult × Option RunError :=
  (tasks.enum.map (fun p => if executed p.1 then execTask p.2 else .cancelled),
   if timedOut then some .timeout else none)

/-- Read result slot `i` of a result slice (with an out-of-range default). -/
def resGet (rs : List TaskResult) (i : Nat) : TaskResult := rs.getD i .cancelled

/-- The doubling task of the example in the spec: double(n) returns n * 2, as in the
mapSlice call of src/05-how-to-use/main.go. -/
def doubleTask (n : Int) : Task := ⟨n, fun x => .ok (x * 2)⟩

/-- filter from src/05-how-to-use/main.go: loops over the slice and appends to
`result` every value on which the given test returns true. -/
def filter (slice : List Int) (keep : Int → Bool) : List Int :=
  slice.foldl (fun result value => if keep value then result ++ [value] else result) []

/-- mapSlice from src/05-how-to-use/main.go: a result slice of the same length,
with transform applied to each element in place. -/
def mapSlice (slice : List Int) (transform : Int → Int) : List Int :=
  slice.map transform

/-- The goroutines spawned by parallelProcessing in src/05-how-to-use/main.go:
goroutine `i` writes worker(slice[i]) into its own slot `i` of the shared
result slice; `order` is the order in which the goroutine writes happen (any
interleaving the scheduler produces). -/
def parallelWrites (slice : List Int) (worker : Int → Int) (order : List Nat)
    (res : List Int) : List Int :=
  order.foldl (fun r i => r.set i (worker (slice.getD i 0))) res

/-- parallelProcessing from src/05-how-to-use/main.go: the result slice is
pre-sized with make, every spawned goroutine performs its write, and wg.Wait
returns the final slice. -/
def parallelProcessing (slice : List Int) (worker : Int → Int) (order : List Nat) :
    List Int :=
  parallelWrites slice worker order (List.replicate slice.length 0)

/-- The body of safeDivide from src/07-select/main.go before the deferred
recover: panics with "division by zero" when b = 0, otherwise returns the Go
quotient a / b (truncated toward zero). -/
def safeDivideBody (a b : Int) : TaskOutcome :=
  if b = 0 then .panicked "division by zero" else .ok (a.tdiv b)

/-- The deferred recover of safeDivide from src/07-select/main.go: a panic r
becomes err = fmt.Errorf("error: %v", r) while the named result keeps its zero
value; a normal return passes through with a nil error. -/
def recoverToError (o : TaskOutcome) : Int × Option String :=
  match o with
  | .ok v => (v, none)
  | .panicked msg => (0, some ("error: " ++ msg))

/-- safeDivide from src/07-select/main.go: the body guarded by the deferred
recover. -/
def safeDivide (a b : Int) : Int × Option String :=
  recoverToError (safeDivideBody a b)

/-- divide from src/unnamed/part_001: panics with "division by zero" when
b = 0 (there is no recover anywhere on the call path), otherwise returns the
Go quotient a / b (truncated toward zero). -/
def divide (a b : Int) : Except String Int :=
  if b = 0 then Except.error "division by zero" else Except.ok (a.tdiv b)

/-- main of src/unnamed/part_001 evaluates fmt.Println(divide(10, 0)); this is
the outcome of that call. -/
def mainDivideCall : Except String Int := divide 10 0

/-- Modelled from the spec: the cancellation token (spec sections 3 and 4.3;
the snippets use context.WithCancel from the Go standard library, which is not
under src/). The state is the error slot of the context: empty while active, set
exactly once by cancel; a later cancel observes the slot already set and
returns without changing anything. -/
structure CancelToken where
  err : Option String
deriving DecidableEq, Repr

/-- A fresh, still-active token. -/
def newToken : CancelToken := ⟨none⟩

/-- Trigger cancellation on the token. -/
def cancel (t : CancelToken) : CancelToken :=
  match t.err with
  | some _ => t
  | none => ⟨some "context canceled"⟩

/-- Whether the token has been cancelled (the Done channel is closed). -/
def isCancelled (t : CancelToken) : Bool := t.err.isSome

/-- Modelled from the spec: the FIFO task queue of a run over n tasks in which
cancellation strikes after k dequeues (spec section 4.1): tasks are handed out
in submission order, each to exactly one consumer, and no task is dequeued
after cancellation. The value is the sequence of dequeued task indices. -/
def dequeueSeq (n k : Nat) : List Nat := (List.range n).take k

/-- An execution event of a run: task i starts executing, or task i finishes. -/
inductive ExecEvent where
  | start (i : Nat)
  | finish (i : Nat)
deriving DecidableEq, Repr

/-- Modelled from the spec: the event trace of a run with workerCount = 1
(spec section 5): the single worker loops dequeue, execute, record, so each
start event of a task is immediately followed by its finish before the next dequeue. -/
def singleWorkerTrace : List Nat → List ExecEvent
  | [] => []
  | i :: rest => .start i :: .finish i :: singleWorkerTrace rest

/-- The shared execution-overlap counter of spec section 8: incremented at
every start event, decremented at every finish event. -/
def overlapStep (c : Nat) : ExecEvent → Nat
  | .start _ => c + 1
  | .finish _ => c - 1

/-- Every value the overlap counter takes along a trace, initial value
included. -/
def overlapValues (tr : List ExecEvent) : List Nat := tr.scanl overlapStep 0

/-- A JSON value, as far as the Person snippets of src/04-files need one. -/
inductive Json where
  | str (s : String)
  | num (n : Int)
  | obj (fields : List (String × Json))

/-- Person from src/04-files/marshal/main.go and src/04-files/unmarshal/main.go:
name, age, and address, where address carries the omitempty JSON tag on the
marshalling side. -/
structure Person where
  name : String
  age : Int
  address : String
deriving DecidableEq, Repr

/-- Marshalling a Person with json.Marshal, as configured by the struct tags in
src/04-files/marshal/main.go: name and age are always written; address is
dropped when it is the empty string because of omitempty. -/
def marshalPerson (p : Person) : Json :=
  .obj ([("name", .str p.name), ("age", .num p.age)] ++
    (if p.address = "" then [] else [("address", .str p.address)]))

/-- Field access during json.Unmarshal: a string field takes the value of the
matching key, and the zero value "" when the key is absent. -/
def jsonStr (fields : List (String × Json)) (k : String) : String :=
  match fields.lookup k with
  | some (.str s) => s
  | _ => ""

/-- Field access during json.Unmarshal: an int field takes the value of the
matching key, and the zero value 0 when the key is absent. -/
def jsonNum (fields : List (String × Json)) (k : String) : Int :=
  match fields.lookup k with
  | some (.num n) => n
  | _ => 0

/-- Unmarshalling into a Person with json.Unmarshal, as in src/04-files/unmarshal/main.go: each
field is filled from the matching key of the object, absent keys leaving the zero
value. -/
def unmarshalPerson (j : Json) : Person :=
  match j with
  | .obj fields => ⟨jsonStr fields "name", jsonNum fields "age", jsonStr fields "address"⟩
  | _ => ⟨"", 0, ""⟩

/-- The select of exampleTimeout in src/07-select/main.go and of
processWithTimeout in src/05-how-to-use/main.go: between a receive that becomes
ready after workMs and a time.After receive that becomes ready after deadlineMs,
the timeout branch fires exactly when the deadline elapses strictly before the
work completes. -/
def selectTimeout (workMs deadlineMs : Nat) : Bool := decide (deadlineMs < workMs)

/-- A task that runs the body of safeDivide on a zero divisor and therefore
panics. -/
def divByZeroTask : Task := ⟨10, fun a => safeDivideBody a 0⟩

/-- Unfolding one write of the goroutines of parallelProcessing. -/
lemma parallelWrites_cons (slice : List Int) (worker : Int → Int) (i : Nat)
    (rest : List Nat) (res : List Int) :
    parallelWrites slice worker (i :: rest) res =
      parallelWrites slice worker rest (res.set i (worker (slice.getD i 0))) := rfl

/-- The goroutine writes of parallelProcessing never change the length of the
result slice. -/
lemma parallelWrites_length (slice : List Int) (worker : Int → Int)
    (order : List Nat) (res : List Int) :
    (parallelWrites slice worker order res).length = res.length := by
  induction order generalizing res with
  | nil => rfl
  | cons i rest ih => rw [parallelWrites_cons, ih, List.length_set]

/-- A slot no goroutine writes keeps its initial content. -/
lemma parallelWrites_not_mem (slice : List Int) (worker : Int → Int)
    (order : List Nat) (res : List Int) (j : Nat) (hj : j ∉ order) :
    (parallelWrites slice worker order res)[j]? = res[j]? := by
  induction order generalizing res with
  | nil => rfl
  | cons i rest ih =>
    have hij : i ≠ j := by
      intro h
      subst h
      exact hj (List.mem_cons_self i rest)
    rw [parallelWrites_cons, ih _ (fun h => hj (List.mem_cons_of_mem i h))]
    exact List.getElem?_set_ne hij

/-- A slot some goroutine writes ends up holding the worker output for its own
index, whatever order the scheduler ran the goroutines in. -/
lemma parallelWrites_mem (slice : List Int) (worker : Int → Int)
    (order : List Nat) (res : List Int) (j : Nat) (hj : j ∈ order)
    (hlen : j < res.length) :
    (parallelWrites slice worker order res)[j]? = some (worker (slice.getD j 0)) := by
  induction order generalizing res with
  | nil => cases hj
  | cons i rest ih =>
    rw [parallelWrites_cons]
    by_cases hmem : j ∈ rest
    · exact ih _ hmem (by rw [List.length_set]; exact hlen)
    · have hij : j = i := by
        rcases List.mem_cons.mp hj with h | h
        · exact h
        · exact absurd h hmem
      subst hij
      rw [parallelWrites_not_mem _ _ _ _ _ hmem]
      exact List.getElem?_set_self hlen

/-- The result slice of runModel has one slot per submitted task. -/
lemma runModel_fst_length (tasks : List Task) (executed : Nat → Bool)
    (timedOut : Bool) :
    (runModel tasks executed timedOut).1.length = tasks.length := by
  simp [runModel]

/-- With every task executed and no timeout, runModel is exactly the pointwise
execution of the submitted tasks, with a nil run error. -/
lemma runModel_all_executed (tasks : List Task) :
    runModel tasks (fun _ => true) false = (tasks.map execTask, none) := by
  unfold runModel
  simp only [if_true, if_false]
  congr 1
  conv_rhs => rw [← List.enum_map_snd tasks, List.map_map]
  rfl

/-- The content of result slot i of runModel, for i in range. -/
lemma resGet_runModel (tasks : List Task) (executed : Nat → Bool) (timedOut : Bool)
    (i : Nat) (h : i < tasks.length) :
    resGet (runModel tasks executed timedOut).1 i =
      if executed i then execTask (tasks.getD i defaultTask) else .cancelled := by
  have h1 : tasks[i]? = some tasks[i] := List.getElem?_eq_getElem h
  simp [resGet, runModel, List.getD_eq_getElem?_getD, List.getElem?_map,
    List.getElem?_enum, h1]

/-- The filter loop of src/05-how-to-use/main.go, started from any accumulator,
appends exactly the elements the test keeps, in order. -/
lemma filter_foldl (keep : Int → Bool) (slice : List Int) (acc : List Int) :
    slice.foldl (fun result value => if keep value then result ++ [value] else result) acc
      = acc ++ slice.filter keep := by
  induction slice generalizing acc with
  | nil => simp
  | cons x xs ih =>
    cases hx : keep x <;> simp [List.filter_cons, hx, ih, List.append_assoc]

/-- Triggering cancellation twice is the same as triggering it once. -/
lemma cancel_cancel (t : CancelToken) : cancel (cancel t) = cancel t := by
  obtain ⟨e⟩ := t
  cases e <;> rfl

/-- Unfolding the overlap counter along the trace of a single-worker run. -/
lemma overlapValues_cons (i : Nat) (rest : List Nat) :
    overlapValues (singleWorkerTrace (i :: rest)) =
      0 :: 1 :: overlapValues (singleWorkerTrace rest) := by
  simp [overlapValues, singleWorkerTrace, List.scanl_cons, overlapStep]

/-- Claim C1: with no cancellation and sufficient timeout, Run returns exactly
N results ordered by original submission index, the result at index i being the
i-th task function applied to the i-th input; in particular the result slice of
parallelProcessing equals the pointwise worker image for every write order
covering all slots, and doubling the inputs 1, 2, 3 yields the results
2, 4, 6 with a nil error. -/
theorem run_complete_results :
    (∀ tasks : List Task, runModel tasks (fun _ => true) false = (tasks.map execTask, none)) ∧
    (∀ (slice : List Int) (worker : Int → Int) (order : List Nat),
      (∀ j, j < slice.length → j ∈ order) →
      parallelProcessing slice worker order = slice.map worker) ∧
    (∀ slice : List Int, (runModel (slice.map doubleTask) (fun _ => true) false).1 =
      (mapSlice slice (fun x => x * 2)).map TaskResult.ok) ∧
    runModel [doubleTask 1, doubleTask 2, doubleTask 3] (fun _ => true) false =
      ([.ok 2, .ok 4, .ok 6], none) := by
  refine ⟨runModel_all_executed, ?_, ?_, by rfl⟩
  · intro slice worker order hcover
    apply List.ext_getElem?
    intro n
    by_cases hn : n < slice.length
    · have hres : n < (List.replicate slice.length (0 : Int)).length := by
        rw [List.length_replicate]; exact hn
      rw [parallelProcessing, parallelWrites_mem _ _ _ _ _ (hcover n hn) hres,
        List.getElem?_map, List.getElem?_eq_getElem hn]
      simp [List.getD_eq_getElem?_getD, List.getElem?_eq_getElem hn]
    · have h1 : (parallelProcessing slice worker order).length ≤ n := by
        rw [parallelProcessing, parallelWrites_length, List.length_replicate]
        omega
      have h2 : (slice.map worker).length ≤ n := by
        rw [List.length_map]; omega
      rw [List.getElem?_eq_none h1, List.getElem?_eq_none h2]
  · intro slice
    rw [runModel_all_executed, mapSlice, List.map_map, List.map_map]
    rfl

/-- Claim C1, checked on a concrete run: doubling the slice 1, 2, 3 through
parallelProcessing under a scrambled scheduler order gives 2, 4, 6. -/
theorem run_complete_results_witness :
    parallelProcessing [1, 2, 3] (fun x => x * 2) [2, 0, 1] = [2, 4, 6] :=
  run_complete_results.2.1 [1, 2, 3] (fun x => x * 2) [2, 0, 1] (by decide)

/-- Claim C2: a task function that panics has the panic recovered at the worker
boundary and turned into a task-level error in its own result slot, the run
continues (nil run error) and every other slot still holds its own execution
outcome; safeDivide likewise converts its division-by-zero panic into an error
return. -/
theorem panic_recovered_per_task (tasks : List Task) (j : Nat) (msg : String)
    (hj : j < tasks.length)
    (hpanic : (tasks.getD j defaultTask).fn (tasks.getD j defaultTask).input = .panicked msg) :
    resGet (runModel tasks (fun _ => true) false).1 j = .taskError msg ∧
    (∀ i, i < tasks.length → i ≠ j →
      resGet (runModel tasks (fun _ => true) false).1 i = execTask (tasks.getD i defaultTask)) ∧
    (runModel tasks (fun _ => true) false).2 = none ∧
    (∀ a : Int, safeDivide a 0 = (0, some "error: division by zero")) := by
  refine ⟨?_, ?_, rfl, fun a => rfl⟩
  · rw [resGet_runModel tasks _ false j hj, if_pos rfl, execTask, hpanic]
  · intro i hi _
    rw [resGet_runModel tasks _ false i hi, if_pos rfl]

/-- Claim C2, checked on a concrete run: among three tasks the middle one
divides by zero; its slot records the panic message as a task error. -/
theorem panic_recovered_per_task_witness :
    resGet (runModel [doubleTask 1, divByZeroTask, doubleTask 3] (fun _ => true) false).1 1 =
      .taskError "division by zero" :=
  (panic_recovered_per_task [doubleTask 1, divByZeroTask, doubleTask 3] 1
    "division by zero" (by decide) rfl).1

/-- Claim C3: whatever the execution and timeout outcome, the result slice of
Run has exactly one slot per submitted task, and an empty task list yields an
empty result set with a nil error. -/
theorem run_full_length (tasks : List Task) (executed : Nat → Bool) (timedOut : Bool) :
    (runModel tasks executed timedOut).1.length = tasks.length ∧
    (runModel [] executed timedOut).1 = [] ∧
    runModel [] (fun _ => true) false = ([], none) :=
  ⟨runModel_fst_length tasks executed timedOut, rfl, rfl⟩

/-- Claim C4: the queue hands out each task at most once (the dequeue sequence
has no duplicates), a task is dequeued exactly when it precedes the
cancellation point, a task never dequeued ends with a cancelled slot, and a
dequeued task ends with the outcome of its single execution. -/
theorem task_delivered_once (tasks : List Task) (k : Nat) :
    (dequeueSeq tasks.length k).Nodup ∧
    (∀ i, (dequeueSeq tasks.length k).count i ≤ 1) ∧
    (∀ i, i ∈ dequeueSeq tasks.length k ↔ i < min k tasks.length) ∧
    (∀ i, i < tasks.length → i ∉ dequeueSeq tasks.length k →
      resGet (runModel tasks (fun j => decide (j < k)) false).1 i = .cancelled) ∧
    (∀ i, i ∈ dequeueSeq tasks.length k →
      resGet (runModel tasks (fun j => decide (j < k)) false).1 i =
        execTask (tasks.getD i defaultTask)) := by
  have hseq : dequeueSeq tasks.length k = List.range (min k tasks.length) := by
    rw [dequeueSeq, List.take_range]
  have hnodup : (dequeueSeq tasks.length k).Nodup := by
    rw [hseq]; exact List.nodup_range _
  have hmem : ∀ i, i ∈ dequeueSeq tasks.length k ↔ i < min k tasks.length := by
    intro i; rw [hseq, List.mem_range]
  refine ⟨hnodup, List.nodup_iff_count_le_one.mp hnodup, hmem, ?_, ?_⟩
  · intro i hi hnot
    have hk : ¬ i < k := fun h => hnot ((hmem i).mpr (by omega))
    rw [resGet_runModel tasks _ false i hi, if_neg (by simpa using hk)]
  · intro i hi
    have hik : i < min k tasks.length := (hmem i).mp hi
    rw [resGet_runModel tasks _ false i (by omega), if_pos (by simp; omega)]

/-- Claim C4, checked on a concrete run of two tasks cancelled after one
dequeue: the first slot holds its execution outcome, the second is cancelled. -/
theorem task_delivered_once_witness :
    resGet (runModel [doubleTask 1, doubleTask 2] (fun j => decide (j < 1)) false).1 1 =
        .cancelled ∧
    resGet (runModel [doubleTask 1, doubleTask 2] (fun j => decide (j < 1)) false).1 0 =
        .ok 2 :=
  ⟨(task_delivered_once [doubleTask 1, doubleTask 2] 1).2.2.2.1 1 (by decide) (by decide),
   (task_delivered_once [doubleTask 1, doubleTask 2] 1).2.2.2.2 0 (by decide)⟩

/-- Claim C5: when the timeout elapses before all tasks complete, Run returns
the Timeout error, a full-length result slice in which every completed slot
holds its execution outcome and every remaining slot is marked cancelled; in
the select snippets the timeout branch indeed fires when the deadline (2s) is
shorter than the work (3s). -/
theorem run_timeout_outcome (tasks : List Task) (executed : Nat → Bool) :
    (runModel tasks executed true).2 = some .timeout ∧
    (runModel tasks executed true).1.length = tasks.length ∧
    (∀ i, i < tasks.length → executed i = true →
      resGet (runModel tasks executed true).1 i = execTask (tasks.getD i defaultTask)) ∧
    (∀ i, i < tasks.length → executed i = false →
      resGet (runModel tasks executed true).1 i = .cancelled) ∧
    selectTimeout 3000 2000 = true := by
  refine ⟨rfl, runModel_fst_length tasks executed true, ?_, ?_, by decide⟩
  · intro i hi hex
    rw [resGet_runModel tasks executed true i hi, if_pos hex]
  · intro i hi hex
    rw [resGet_runModel tasks executed true i hi, if_neg (by simp [hex])]

/-- Claim C5, checked on a concrete timed-out run of one never-executed task:
the slot is cancelled and the run error is Timeout. -/
theorem run_timeout_outcome_witness :
    resGet (runModel [doubleTask 5] (fun _ => false) true).1 0 = .cancelled ∧
    (runModel [doubleTask 5] (fun _ => false) true).2 = some .timeout :=
  ⟨(run_timeout_outcome [doubleTask 5] (fun _ => false)).2.2.2.1 0 (by decide) rfl,
   (run_timeout_outcome [doubleTask 5] (fun _ => false)).1⟩

/-- Claim C6: cancellation is idempotent: the token moves at most once from
active to cancelled and never resets; a second or any further trigger leaves
the token exactly as one trigger left it, and a trigger on an already-cancelled
token changes nothing. -/
theorem cancel_idempotent (t : CancelToken) :
    cancel (cancel t) = cancel t ∧
    isCancelled (cancel t) = true ∧
    (isCancelled t = true → cancel t = t) ∧
    (∀ n : Nat, Nat.iterate cancel n (cancel t) = cancel t) ∧
    isCancelled newToken = false := by
  refine ⟨cancel_cancel t, ?_, ?_, ?_, rfl⟩
  · obtain ⟨e⟩ := t; cases e <;> rfl
  · obtain ⟨e⟩ := t
    cases e with
    | none => intro h; cases h
    | some s => intro _; rfl
  · intro n
    induction n with
    | zero => rfl
    | succ m ih => rw [Function.iterate_succ_apply, cancel_cancel]; exact ih

/-- Claim C6, checked concretely: double cancellation of a fresh token equals
single cancellation, and cancelling an already-cancelled token is the
identity. -/
theorem cancel_idempotent_witness :
    cancel (cancel newToken) = cancel newToken ∧
    cancel ⟨some "context canceled"⟩ = ⟨some "context canceled"⟩ :=
  ⟨(cancel_idempotent newToken).1,
   (cancel_idempotent ⟨some "context canceled"⟩).2.2.1 rfl⟩

/-- Claim C7: in a run with workerCount = 1 the execution-overlap counter never
exceeds 1 along the trace, so it never observes two simultaneous task
executions. -/
theorem single_worker_serialized (idxs : List Nat) :
    (overlapValues (singleWorkerTrace idxs)).all (fun c => decide (c ≤ 1)) = true ∧
    (overlapValues (singleWorkerTrace idxs)).contains 2 = false := by
  induction idxs with
  | nil => exact ⟨rfl, rfl⟩
  | cons i rest ih =>
    rw [overlapValues_cons]
    refine ⟨?_, ?_⟩
    · simp [List.all_cons, ih.1]
    · simpa using ih.2

/-- Claim C8: divide panics with "division by zero" exactly when the divisor is
zero, returns the Go quotient otherwise, and the unrecovered call divide(10, 0)
in main ends in that panic rather than an error value. -/
theorem divide_panic_iff (a b : Int) :
    ((∃ msg, divide a b = .error msg) ↔ b = 0) ∧
    (b = 0 → divide a b = .error "division by zero") ∧
    (b ≠ 0 → divide a b = .ok (a.tdiv b)) ∧
    mainDivideCall = .error "division by zero" := by
  by_cases hb : b = 0 <;>
    simp [divide, hb, mainDivideCall]

/-- Claim C8, checked concretely: divide 10 3 returns the quotient 3 without
panicking, and divide 10 0 panics. -/
theorem divide_panic_iff_witness :
    divide 10 3 = .ok 3 ∧ divide 10 0 = .error "division by zero" :=
  ⟨(divide_panic_iff 10 3).2.2.1 (by decide), (divide_panic_iff 10 0).2.1 rfl⟩

/-- Claim C9: JSON serialization of a Person round-trips: unmarshalling the
marshalled form restores every Person, including one with an empty address,
which omitempty drops from the marshalled object. -/
theorem person_roundtrip :
    (∀ p : Person, unmarshalPerson (marshalPerson p) = p) ∧
    marshalPerson ⟨"Alice", 30, ""⟩ = .obj [("name", .str "Alice"), ("age", .num 30)] ∧
    unmarshalPerson (marshalPerson ⟨"Alice", 30, ""⟩) = ⟨"Alice", 30, ""⟩ := by
  refine ⟨?_, rfl, rfl⟩
  rintro ⟨n, a, ad⟩
  by_cases h : ad = ""
  · subst h; rfl
  · simp only [marshalPerson, if_neg h]
    rfl

/-- Claim C10: filter returns exactly the elements on which the test holds, in
their original relative order (it equals the reference List.filter), and its
result is empty exactly when no element passes the test. -/
theorem filter_correct (slice : List Int) (keep : Int → Bool) :
    filter slice keep = slice.filter keep ∧
    (filter slice keep = [] ↔ ∀ x ∈ slice, keep x = false) := by
  have h : filter slice keep = slice.filter keep := by
    rw [filter, filter_foldl keep slice []]
    rfl
  refine ⟨h, ?_⟩
  rw [h, List.filter_eq_nil_iff]
  simp

end AvitoEdu
